import Mathlib

/-!
A shallow embedding of the LibFS.c filesystem (single volume, inode based,
on a sector addressed block device) together with proofs about its file and
directory operations.

Modelling conventions, stated once here:

* C `int` values are modelled as `Int`.  All quantities handled by the
  claims are far below 2^31, so wrap-around is never exercised; `Int.tdiv`
  and `Int.tmod` are used for `/` and `%` because they have exactly the C
  truncating semantics on negative operands.
* A raw disk sector is a byte function `Buf := Int → Int` (byte values
  0..255 in well formed states).  The data region and the two bitmaps are
  kept as raw sectors in `FS.disk`.  The inode table region is kept in its
  typed view `FS.inodes : Int → Inode`: every access the source makes to
  that region goes through the cast `(inode_t*)(buffer + offset*sizeof)`
  of a freshly read sector followed by a write of the same sector, so a
  sector round trip is exactly a point update of one typed record.  The
  one-sector inode cache used during path resolution always holds the
  current contents of the cached sector (nothing writes inodes while a
  path is being resolved), so the model reads the table directly.
* Device I/O is modelled as always succeeding on the in-memory disk image
  (the simulated disk of LibDisk); the error returns of the source that
  are reachable only through device failures are therefore absent.
* `File_Read` and `File_Write` in the source declare a local
  `char buffer[SECTOR_SIZE]` that shadows the caller supplied `buffer`
  parameter; every `memcpy` in their copy loops has both endpoints inside
  that local scratch sector.  No store through the caller pointer occurs
  anywhere in either body, so the caller visible buffer is threaded
  through unchanged; the self-copies on the scratch sector are modelled
  faithfully.
* `memcpy` with overlapping ranges is given snapshot semantics (the
  source bytes are the bytes before the call); a non-positive length
  copies nothing.
-/

/-- SECTOR_SIZE.  Modelled from the spec: LibDisk.h is not under src/; the
spec fixes only that the sector size is a compile time constant, and 512 is
the value the source layout arithmetic (4 inodes and 25 dirents per sector)
is built around. -/
def SECTOR_SIZE : Int := 512

/-- TOTAL_SECTORS.  Modelled from the spec: LibDisk.h is not under src/. -/
def TOTAL_SECTORS : Int := 10000

/-- MAX_FILES.  Modelled from the spec: LibFS.h is not under src/. -/
def MAX_FILES : Int := 1000

/-- MAX_SECTORS_PER_FILE, the capacity of an inode's data-sector array.
Modelled from the spec: LibFS.h is not under src/. -/
def MAX_SECTORS_PER_FILE : Int := 30

/-- MAX_FILE_SIZE.  Modelled from the spec (section 4.6): the maximum file
size is the sector-array capacity times the sector size. -/
def MAX_FILE_SIZE : Int := MAX_SECTORS_PER_FILE * SECTOR_SIZE

/-- MAX_NAME (LibFS.c line 83): at most 16 bytes including the NUL. -/
def MAX_NAME : Int := 16

/-- MAX_OPEN_FILES (LibFS.c line 86). -/
def MAX_OPEN_FILES : Int := 256

/-- INODE_BITMAP_START_SECTOR (LibFS.c line 32). -/
def INODE_BITMAP_START_SECTOR : Int := 1

/-- INODE_BITMAP_SIZE = (MAX_FILES+7)/8 bytes (LibFS.c line 37). -/
def INODE_BITMAP_SIZE : Int := (MAX_FILES + 7).tdiv 8

/-- INODE_BITMAP_SECTORS (LibFS.c line 38). -/
def INODE_BITMAP_SECTORS : Int := (INODE_BITMAP_SIZE + SECTOR_SIZE - 1).tdiv SECTOR_SIZE

/-- SECTOR_BITMAP_START_SECTOR (LibFS.c line 42). -/
def SECTOR_BITMAP_START_SECTOR : Int := INODE_BITMAP_START_SECTOR + INODE_BITMAP_SECTORS

/-- SECTOR_BITMAP_SIZE = (TOTAL_SECTORS+7)/8 bytes (LibFS.c line 47). -/
def SECTOR_BITMAP_SIZE : Int := (TOTAL_SECTORS + 7).tdiv 8

/-- SECTOR_BITMAP_SECTORS (LibFS.c line 48). -/
def SECTOR_BITMAP_SECTORS : Int := (SECTOR_BITMAP_SIZE + SECTOR_SIZE - 1).tdiv SECTOR_SIZE

/-- INODE_TABLE_START_SECTOR (LibFS.c line 52). -/
def INODE_TABLE_START_SECTOR : Int := SECTOR_BITMAP_START_SECTOR + SECTOR_BITMAP_SECTORS

/-- sizeof(inode_t) = 4 + 4 + 4*MAX_SECTORS_PER_FILE bytes. -/
def INODE_RECORD_SIZE : Int := 8 + 4 * MAX_SECTORS_PER_FILE

/-- INODES_PER_SECTOR (LibFS.c line 70). -/
def INODES_PER_SECTOR : Int := SECTOR_SIZE.tdiv INODE_RECORD_SIZE

/-- sizeof(dirent_t) = 16 name bytes + 4 inode bytes. -/
def DIRENT_SIZE : Int := MAX_NAME + 4

/-- DIRENTS_PER_SECTOR (LibFS.c line 97). -/
def DIRENTS_PER_SECTOR : Int := SECTOR_SIZE.tdiv DIRENT_SIZE

/-- Error numbers.  Modelled from the spec (section 7 error taxonomy):
LibFS.h, which defines the E_* constants, is not under src/; only their
distinctness is used anywhere, so they are modelled as distinct integers. -/
def E_GENERAL : Int := 1

/-- Modelled from the spec: see E_GENERAL. -/
def E_CREATE : Int := 2

/-- Modelled from the spec: see E_GENERAL. -/
def E_NO_SUCH_FILE : Int := 3

/-- Modelled from the spec: see E_GENERAL. -/
def E_TOO_MANY_OPEN_FILES : Int := 4

/-- Modelled from the spec: see E_GENERAL. -/
def E_BAD_FD : Int := 5

/-- Modelled from the spec: see E_GENERAL. -/
def E_NO_SPACE : Int := 6

/-- Modelled from the spec: see E_GENERAL. -/
def E_FILE_TOO_BIG : Int := 7

/-- Modelled from the spec: see E_GENERAL. -/
def E_SEEK_OUT_OF_BOUNDS : Int := 8

/-- Modelled from the spec: see E_GENERAL. -/
def E_FILE_IN_USE : Int := 9

/-- Modelled from the spec: see E_GENERAL. -/
def E_DIR_NOT_EMPTY : Int := 10

/-- Modelled from the spec: see E_GENERAL. -/
def E_BUFFER_TOO_SMALL : Int := 11

/-- Modelled from the spec: see E_GENERAL. -/
def E_NO_SUCH_DIR : Int := 12

/-- A byte buffer: one disk sector, a caller buffer, or a scratch array. -/
abbrev Buf : Type := Int → Int

/-- C memcpy of n bytes from src+soff to dst+doff, snapshot semantics for
overlap; n ≤ 0 copies nothing (no call in the modelled traces passes a
negative length to an executed copy). -/
def memcpy (dst : Buf) (doff : Int) (src : Buf) (soff : Int) (n : Int) : Buf :=
  fun k => if doff ≤ k ∧ k < doff + n then src (soff + (k - doff)) else dst k

/-- Overwrite one sector of a disk image. -/
def updSector (disk : Int → Buf) (sec : Int) (b : Buf) : Int → Buf :=
  fun s => if s = sec then b else disk s

/-- inode_t (LibFS.c lines 57-61): size, type (0 file, 1 directory) and the
direct data-sector array, modelled as a total function read at 0..29. -/
structure Inode where
  size : Int
  type : Int
  data : Int → Int

/-- A zeroed inode record (memset(child, 0, sizeof(inode_t))). -/
def zeroInode : Inode := { size := 0, type := 1 - 1, data := fun _ => 0 }

/-- open_file_t (LibFS.c lines 801-805): inode (0 = slot unused), cached
size, and the read/write position. -/
structure OpenFile where
  inode : Int
  size : Int
  pos : Int

/-- The state touched by the modelled operations: the raw disk sectors
(bitmaps and data region), the typed inode table, the open file table and
the osErrno cell. -/
structure FS where
  disk : Int → Buf
  inodes : Int → Inode
  open_files : Int → OpenFile
  osErrno : Int

/-- Update the cursor of one open-file slot (open_files[fd].pos = p). -/
def setPos (st : FS) (fd : Int) (p : Int) : FS :=
  { st with open_files := fun j => if j = fd then { st.open_files j with pos := p } else st.open_files j }

/-- Update one entry of an inode's data-sector array. -/
def setData (ino : Inode) (i v : Int) : Inode :=
  { ino with data := fun j => if j = i then v else ino.data j }

/-- mask[] = {128,64,32,16,8,4,2,1} of set_NthBit / isNthSet (LibFS.c
lines 125, 134): bit n of a byte, most significant first. -/
def maskVal : Nat → Int
  | 0 => 128
  | 1 => 64
  | 2 => 32
  | 3 => 16
  | 4 => 8
  | 5 => 4
  | 6 => 2
  | _ => 1

/-- isNthSet (LibFS.c lines 132-136): (c & mask[n]) != 0, written
arithmetically; on byte values 0..255 this is exactly the C bit test. -/
def isNthSet (c : Int) (n : Nat) : Bool := (c.tdiv (maskVal n)).tmod 2 = 1

/-- set_NthBit (LibFS.c lines 123-127): c | mask[n] on byte values. -/
def set_NthBit (c : Int) (n : Nat) : Int := if isNthSet c n then c else c + maskVal n

/-- c & ~mask[n] on byte values: the effect of the mask table
{127,191,223,239,247,251,253,254} used by bitmap_reset (LibFS.c line 337). -/
def clear_NthBit (c : Int) (n : Nat) : Int := if isNthSet c n then c - maskVal n else c

/-- First clear bit of byte c among bit positions bit, bit+1, ... scanning
cnt positions (the bitInByte loops of bitmap_first_unused). -/
def firstClearBit (c : Int) (bit : Nat) : Nat → Option Nat
  | 0 => none
  | cnt + 1 => if isNthSet c bit then firstClearBit c (bit + 1) cnt else some bit

/-- Byte scan of bitmap_first_unused: bytes x, x+1, ... of the sector
buffer, cnt bytes in all; returns the (byte, bit) position of the first
clear bit. -/
def bfuScanBytes (buf : Buf) : Nat → Nat → Option (Nat × Nat)
  | 0, _ => none
  | cnt + 1, x =>
    match firstClearBit (buf (x : Int)) 0 8 with
    | some b => some (x, b)
    | none => bfuScanBytes buf cnt (x + 1)

/-- One sector of the bitmap_first_unused scan: `last` whole bytes, then
`remain` extra bits of byte number `last` (the trailing loop guarded by
last_block in LibFS.c lines 276-298).  Returns the index of the hit in
scan order together with the updated sector. -/
def bfuScanSector (buf : Buf) (last remain : Nat) : Option (Nat × Buf) :=
  match bfuScanBytes buf last 0 with
  | some (x, b) =>
    some (8 * x + b, fun k => if k = (x : Int) then set_NthBit (buf (x : Int)) b else buf k)
  | none =>
    match firstClearBit (buf (last : Int)) 0 remain with
    | some b =>
      some (8 * last + b, fun k => if k = (last : Int) then set_NthBit (buf (last : Int)) b else buf k)
    | none => none

/-- Sector loop of bitmap_first_unused; `perSector` is the number of bit
positions visited per sector (the running `location` counter advances by
that amount on every sector without a hit). -/
def bfuOuter (disk : Int → Buf) (start : Int) (last remain : Nat) (perSector : Int) :
    Nat → Nat → Int × (Int → Buf)
  | 0, _ => (-1, disk)
  | fuel + 1, k =>
    match bfuScanSector (disk (start + (k : Int))) last remain with
    | some (v, b) => ((k : Int) * perSector + (v : Int), updSector disk (start + (k : Int)) b)
    | none => bfuOuter disk start last remain perSector fuel (k + 1)

/-- bitmap_first_unused (LibFS.c lines 212-302).  Note the faithfully kept
quirks of the source: nBytes = nbits/8 is never decremented across the
sector loop, so `last_block` and the per sector byte count `last` are the
same for every sector, and the running `location` counter is what is
returned, not a recomputed absolute bit position. -/
def bitmap_first_unused (disk : Int → Buf) (start num nbits : Int) : Int × (Int → Buf) :=
  let nBytes := nbits.tdiv 8
  let remain_bits := nbits.tmod 8
  let last_block := nBytes < SECTOR_SIZE
  let last := if last_block then nBytes else SECTOR_SIZE
  let remain := if last_block then remain_bits else 0
  let perSector := 8 * last + remain
  bfuOuter disk start last.toNat remain.toNat perSector num.toNat 0

/-- The `while(nBytes > SECTOR_SIZE) nBytes -= SECTOR_SIZE` loop of
bitmap_reset (LibFS.c lines 325-328). -/
def brReduce : Nat → Int → Int
  | 0, n => n
  | fuel + 1, n => if n > SECTOR_SIZE then brReduce fuel (n - SECTOR_SIZE) else n

/-- bitmap_reset (LibFS.c lines 311-349).  Faithfully kept quirk: only the
sector `start` is ever read and written, whatever byte index the while
loop reduces to. -/
def bitmap_reset (disk : Int → Buf) (start num ibit : Int) : Int × (Int → Buf) :=
  let nBytes0 := ibit.tdiv 8
  let remain_bits := ibit.tmod 8
  if nBytes0 > SECTOR_SIZE * num then (-1, disk)
  else
    let nBytes := brReduce nBytes0.toNat nBytes0
    let buf := disk start
    let buf2 : Buf := fun k => if k = nBytes then clear_NthBit (buf nBytes) remain_bits.toNat else buf k
    (0, updSector disk start buf2)

/-- Slot scan of is_file_open (LibFS.c lines 809-817). -/
def isOpenScan (st : FS) (ino : Int) : Nat → Int → Int
  | 0, _ => 0
  | fuel + 1, i => if (st.open_files i).inode = ino then 1 else isOpenScan st ino fuel (i + 1)

/-- is_file_open (LibFS.c lines 809-817): 1 if any of the 256 open-file
slots holds this inode number, else 0. -/
def is_file_open (st : FS) (ino : Int) : Int := isOpenScan st ino 256 0

/-- Slot scan of new_file_fd (LibFS.c lines 820-828). -/
def nffScan (st : FS) : Nat → Int → Int
  | 0, _ => -1
  | fuel + 1, i => if (st.open_files i).inode ≤ 0 then i else nffScan st fuel (i + 1)

/-- new_file_fd (LibFS.c lines 820-828): the first slot whose inode is ≤ 0,
or -1 if every slot is in use. -/
def new_file_fd (st : FS) : Int := nffScan st 256 0

/-- File_Seek (LibFS.c lines 1381-1401).  The source checks
`open_files[fd].size < offset || open_files[fd].size < 0`; there is no
check of the sign of `offset`. -/
def File_Seek (st : FS) (fd offset : Int) : Int × FS :=
  if is_file_open st (st.open_files fd).inode ≠ 1 then
    (-1, { st with osErrno := E_BAD_FD })
  else if (st.open_files fd).size < offset ∨ (st.open_files fd).size < 0 then
    (-1, { st with osErrno := E_SEEK_OUT_OF_BOUNDS })
  else
    (offset, setPos st fd offset)

/-- The loop state of the File_Read copy loop: the file position (the
source mutates open_files[fd].pos in place), buffer_index, bytes_to_read,
sector_bytes, and the local scratch sector. -/
structure ReadLoopSt where
  pos : Int
  buffer_index : Int
  bytes_to_read : Int
  sector_bytes : Int
  scratch : Buf

/-- Result of the File_Read copy loop: normal termination, or an error
return from inside the loop, carrying the loop state reached so far. -/
inductive ReadLoopRes where
  | ok (r : ReadLoopSt)
  | err (errno : Int) (r : ReadLoopSt)

/-- One iteration body of the File_Read copy loop (LibFS.c lines
1197-1213): a Disk_Read of data sector `child->data[i]` into the local
scratch, the self-copy `memcpy(buffer + buffer_index, buffer +
sector_index, sector_bytes)` whose two endpoints are both inside the
scratch (the caller's buffer parameter is shadowed), then the updates of
pos, buffer_index, bytes_to_read and sector_bytes. -/
def readStep (st : FS) (child : Inode) (sector_index : Int) (i : Int) (r : ReadLoopSt) : ReadLoopSt :=
  let b1 := st.disk (child.data i)
  let b2 := memcpy b1 r.buffer_index b1 sector_index r.sector_bytes
  let btr2 := r.bytes_to_read - r.sector_bytes
  { pos := r.pos + r.sector_bytes
    buffer_index := r.buffer_index + r.sector_bytes
    bytes_to_read := btr2
    sector_bytes := if btr2 < SECTOR_SIZE then btr2 else SECTOR_SIZE
    scratch := b2 }

/-- Copy loop of File_Read (LibFS.c lines 1187-1220), one recursive step
per iteration of `for(i = offset_sector_toLoad; i < offset_sector_toLoad +
sectors_to_read + 1; i++)`: the file-too-big guard
`i > MAX_SECTORS_PER_FILE`, then the iteration body. -/
def fileReadLoop (st : FS) (child : Inode) (sector_index : Int) :
    Nat → Int → ReadLoopSt → ReadLoopRes
  | 0, _, r => .ok r
  | fuel + 1, i, r =>
    if i > MAX_SECTORS_PER_FILE then .err E_FILE_TOO_BIG r
    else fileReadLoop st child sector_index fuel (i + 1) (readStep st child sector_index i r)

/-- File_Read (LibFS.c lines 1110-1225).  Returns (return value, state,
caller buffer).  The caller's `buffer` parameter is shadowed by the local
`char buffer[SECTOR_SIZE]` declared at line 1178, and no store through the
caller pointer occurs in the body, so the third component is the parameter
itself on every path. -/
def File_Read (st : FS) (fd : Int) (buffer : Buf) (size : Int) : Int × FS × Buf :=
  if is_file_open st (st.open_files fd).inode ≠ 1 then
    (-1, { st with osErrno := E_BAD_FD }, buffer)
  else
    let pos := (st.open_files fd).pos
    let osize := (st.open_files fd).size
    let end_of_read := if pos + size > osize then osize else pos + size
    let child := st.inodes (st.open_files fd).inode
    if child.type ≠ 0 then (-1, { st with osErrno := E_GENERAL }, buffer)
    else
      let bytes_to_read := end_of_read - pos
      let bytes_read := bytes_to_read
      let offset_sector_toLoad := pos.tdiv SECTOR_SIZE
      let sector_index := pos.tmod SECTOR_SIZE
      let sector_bytes := if bytes_to_read < SECTOR_SIZE then bytes_to_read else SECTOR_SIZE - sector_index
      let sectors_to_read := (end_of_read - (SECTOR_SIZE - sector_index)).tdiv SECTOR_SIZE
      if osize ≤ pos then (0, st, buffer)
      else
        match fileReadLoop st child sector_index (sectors_to_read + 1).toNat offset_sector_toLoad
            { pos := pos, buffer_index := 0, bytes_to_read := bytes_to_read,
              sector_bytes := sector_bytes, scratch := fun _ => 0 } with
        | .ok r => (bytes_read, setPos st fd r.pos, buffer)
        | .err e r => (-1, { setPos st fd r.pos with osErrno := e }, buffer)

/-- The loop state of the File_Write copy loop: file position,
buffer_index, remainder_bytes, sector_bytes, the local copy of the child
inode (mutated data-sector entries live in the local inode_buffer and are
persisted only by the final Disk_Write on the success path) and the disk
image (data sector writes and bitmap allocations hit the disk at once). -/
structure WriteLoopSt where
  pos : Int
  buffer_index : Int
  remainder_bytes : Int
  sector_bytes : Int
  child : Inode
  disk : Int → Buf

/-- Result of the File_Write copy loop. -/
inductive WriteLoopRes where
  | ok (r : WriteLoopSt)
  | err (errno : Int) (r : WriteLoopSt)

/-- Allocation part of one File_Write loop iteration (LibFS.c lines
1310-1321): when `child->data[i] == 0`, claim a data sector through
bitmap_first_unused and record it in the local inode copy; the Bool is
the E_NO_SPACE condition `child->data[i] < 0`. -/
def writeAlloc (i : Int) (r : WriteLoopSt) : WriteLoopSt × Bool :=
  if r.child.data i = 0 then
    let a := bitmap_first_unused r.disk SECTOR_BITMAP_START_SECTOR SECTOR_BITMAP_SECTORS SECTOR_BITMAP_SIZE
    ({ r with child := setData r.child i a.1, disk := a.2 }, a.1 < 0)
  else (r, false)

/-- Transfer part of one File_Write loop iteration (LibFS.c lines
1326-1352): Disk_Read of the data sector into the local scratch, the
self-copy `memcpy(buffer + sector_index, buffer + buffer_index,
sector_bytes)` whose endpoints are both inside the scratch (the caller's
buffer parameter is shadowed), the updates of pos, buffer_index,
remainder_bytes and sector_bytes, and the Disk_Write of the scratch back
to the data sector. -/
def writeStep (sector_index : Int) (i : Int) (r1 : WriteLoopSt) : WriteLoopSt :=
  let sec := r1.child.data i
  let b1 := r1.disk sec
  let b2 := memcpy b1 sector_index b1 r1.buffer_index r1.sector_bytes
  let rem2 := r1.remainder_bytes - r1.sector_bytes
  { pos := r1.pos + r1.sector_bytes
    buffer_index := r1.buffer_index + r1.sector_bytes
    remainder_bytes := rem2
    sector_bytes := if rem2 < SECTOR_SIZE then rem2 else SECTOR_SIZE
    child := r1.child
    disk := updSector r1.disk sec b2 }

/-- Copy loop of File_Write (LibFS.c lines 1299-1352), one recursive step
per iteration of `for(i = offset_sector_toLoad; i < sectors_to_write + 1;
i++)` (the upper bound of the source does not add offset_sector_toLoad):
the `i > MAX_SECTORS_PER_FILE` guard, the allocation part with its
E_NO_SPACE exit, then the transfer part. -/
def fileWriteLoop (sector_index : Int) : Nat → Int → WriteLoopSt → WriteLoopRes
  | 0, _, r => .ok r
  | fuel + 1, i, r =>
    if i > MAX_SECTORS_PER_FILE then .err E_FILE_TOO_BIG r
    else
      let a := writeAlloc i r
      if a.2 then .err E_NO_SPACE a.1
      else fileWriteLoop sector_index fuel (i + 1) (writeStep sector_index i a.1)

/-- File_Write (LibFS.c lines 1235-1371).  Returns (return value, state).
The file-too-big guard of the source compares the cached file size, not
the cursor: `open_files[fd].size + size > MAX_FILE_SIZE`.  On success the
open slot's cached size and the persisted inode size are both set to the
final cursor position and the inode (with any newly recorded data sector
indices) is written back; on an error from inside the loop the cursor
advance and the disk writes made so far stand, but the inode is not
persisted.  The caller's `buffer` parameter is shadowed by the local
scratch declared at line 1294 and its contents are never read. -/
def File_Write (st : FS) (fd : Int) (buffer : Buf) (size : Int) : Int × FS :=
  if is_file_open st (st.open_files fd).inode ≠ 1 then
    (-1, { st with osErrno := E_BAD_FD })
  else if (st.open_files fd).size + size > MAX_FILE_SIZE then
    (-1, { st with osErrno := E_FILE_TOO_BIG })
  else
    let child_inode := (st.open_files fd).inode
    let child := st.inodes child_inode
    if child.type ≠ 0 then (-1, { st with osErrno := E_GENERAL })
    else
      let pos := (st.open_files fd).pos
      let offset_sector_toLoad := pos.tdiv SECTOR_SIZE
      let sector_index := pos.tmod SECTOR_SIZE
      let remainder_bytes := if MAX_FILE_SIZE < pos + size then MAX_FILE_SIZE - pos else size
      let sector_bytes := SECTOR_SIZE - sector_index
      let sectors_to_write := (size - (SECTOR_SIZE - sector_index)).tdiv SECTOR_SIZE
      match fileWriteLoop sector_index (sectors_to_write + 1 - offset_sector_toLoad).toNat
          offset_sector_toLoad
          { pos := pos, buffer_index := 0, remainder_bytes := remainder_bytes,
            sector_bytes := sector_bytes, child := child, disk := st.disk } with
      | .err e r =>
        (-1, { setPos st fd r.pos with disk := r.disk, osErrno := e })
      | .ok r =>
        (size,
         { st with
           disk := r.disk
           open_files := fun j => if j = fd then { inode := child_inode, size := r.pos, pos := r.pos } else st.open_files j
           inodes := fun j => if j = child_inode then { size := r.pos, type := r.child.type, data := r.child.data } else st.inodes j })

/-- Legal file name characters (LibFS.c lines 369): alphanumerics (ASCII,
the default C locale), dot, dash, underscore. -/
def legalChar (c : Int) : Bool :=
  (48 ≤ c ∧ c ≤ 57) ∨ (65 ≤ c ∧ c ≤ 90) ∨ (97 ≤ c ∧ c ≤ 122) ∨ c = 46 ∨ c = 45 ∨ c = 95

/-- illegal_filename (LibFS.c lines 360-387) on a NUL-free byte string:
true (illegal) if some character is not legal or the length exceeds
MAX_NAME-1. -/
def illegal_filename (name : List Int) : Bool :=
  !(name.all legalChar) || name.length > 15

/-- strcmp(field, s) == 0 for a NUL-terminated byte field starting at
`off` in `buf` and a NUL-free string s: every byte of s matches and the
field's next byte is NUL. -/
def strEqAt (buf : Buf) (off : Int) : List Int → Bool
  | [] => buf off = 0
  | c :: rest => buf off = c && strEqAt buf (off + 1) rest

/-- The signed 32-bit little-endian integer stored at bytes off..off+3, as
read through the int casts of the source on the reference platform. -/
def readInt32 (buf : Buf) (off : Int) : Int :=
  let v := buf off + 256 * buf (off + 1) + 65536 * buf (off + 2) + 16777216 * buf (off + 3)
  if v ≥ 2147483648 then v - 4294967296 else v

/-- A directory entry record as the source reads it through the cast
((dirent_t*)buffer)[j]: the 16 raw fname bytes and the inode number. -/
structure DirentRec where
  fname : List Int
  ino : Int
deriving DecidableEq

/-- The count bytes of a buffer starting at offset off, as a list. -/
def bytesAt (buf : Buf) (off : Int) : Nat → List Int
  | 0 => []
  | count + 1 => buf off :: bytesAt buf (off + 1) count

/-- Read directory entry j of a dirent sector. -/
def direntAt (buf : Buf) (j : Int) : DirentRec :=
  { fname := bytesAt buf (DIRENT_SIZE * j) 16
    ino := readInt32 buf (DIRENT_SIZE * j + 16) }

/-- Byte k of strncpy(dst, src, 16) where src is a 16-byte field given as
a list: bytes of src up to and including its first NUL are copied, the
rest of dst is NUL-padded. -/
def strncpyByte (src : List Int) (k : Nat) : Int :=
  if (List.range k).all (fun j => src.getD j 0 ≠ 0) then src.getD k 0 else 0

/-- Byte k of the 4-byte little-endian store of an int value (two's
complement). -/
def writeInt32 (v : Int) (k : Nat) : Int := ((v.emod 4294967296).toNat / 256 ^ k % 256 : Nat)

/-- Overwrite directory entry j of a dirent sector with record d, through
`strncpy(cur->fname, d.fname, MAX_NAME)` and `cur->inode = d.ino` as in
the swap step of remove_inode. -/
def direntSet (buf : Buf) (j : Int) (d : DirentRec) : Buf :=
  fun k =>
    if DIRENT_SIZE * j ≤ k ∧ k < DIRENT_SIZE * j + 16 then strncpyByte d.fname (k - DIRENT_SIZE * j).toNat
    else if DIRENT_SIZE * j + 16 ≤ k ∧ k < DIRENT_SIZE * j + 20 then writeInt32 d.ino (k - (DIRENT_SIZE * j + 16)).toNat
    else buf k

/-- Inner entry scan of find_child_inode (LibFS.c lines 417-431): entries
i = 0..DIRENTS_PER_SECTOR-1 of one dirent sector, with the source's
`if(i > nentries) break` test (note: >, not ≥, so one entry past the live
count is examined). -/
def fciInner (buf : Buf) (fname : List Int) (nentries : Int) : Nat → Int → Option Int
  | 0, _ => none
  | fuel + 1, i =>
    if i > nentries then none
    else if strEqAt buf (DIRENT_SIZE * i) fname then some (readInt32 buf (DIRENT_SIZE * i + 16))
    else fciInner buf fname nentries fuel (i + 1)

/-- Group scan of find_child_inode (LibFS.c lines 413-433): while
nentries > 0, read dirent group idx and scan it; nentries decreases by
DIRENTS_PER_SECTOR per group.  The fuel always exceeds the group count. -/
def fciOuter (st : FS) (parent : Inode) (fname : List Int) : Nat → Int → Int → Int
  | 0, _, _ => -1
  | fuel + 1, idx, nentries =>
    if nentries > 0 then
      match fciInner (st.disk (parent.data idx)) fname nentries 25 0 with
      | some ino => ino
      | none => fciOuter st parent fname fuel (idx + 1) (nentries - DIRENTS_PER_SECTOR)
    else -1

/-- find_child_inode (LibFS.c lines 399-436): the child inode of name
fname under parent_inode, -1 if not found, -2 if the parent is not a
directory.  The one-sector inode cache of the source always holds the
current contents of the cached inode-table sector, so the model reads the
typed table directly; the cache update on a hit has no semantic effect. -/
def find_child_inode (st : FS) (parent_inode : Int) (fname : List Int) : Int :=
  let parent := st.inodes parent_inode
  if parent.type ≠ 1 then -2
  else fciOuter st parent fname (parent.size.toNat + 1) 0 parent.size

/-- strsep splitting of a path body on slash bytes, keeping empty tokens
(the caller skips them, as the source does with `if(*token == 0)
continue`). -/
def splitSlash : List Int → List Int → List (List Int)
  | [], acc => [acc.reverse]
  | c :: rest, acc => if c = 47 then acc.reverse :: splitSlash rest [] else splitSlash rest (c :: acc)

/-- Token loop of follow_path (LibFS.c lines 474-492): skip empty tokens,
reject illegal names, reject descent through a previously unresolved
child, then descend and remember the token as the last file name.  Returns
none on the error returns of the source. -/
def fpLoop (st : FS) (parent child : Int) (name : List Int) :
    List (List Int) → Option (Int × Int × List Int)
  | [] => some (parent, child, name)
  | tok :: rest =>
    if tok = [] then fpLoop st parent child name rest
    else if illegal_filename tok then none
    else if child < 0 then none
    else fpLoop st child (find_child_inode st child tok) tok rest

/-- follow_path (LibFS.c lines 447-505) on a NUL-free byte string.
Returns (parent return value, last inode, last component name).  On the
error paths the source returns -1 and leaves *last_inode and
last_filename unassigned; the model returns (-1, -1, []) there (no claim
reads the unassigned components).  The path body is truncated to
MAX_PATH-1 bytes as by the strncpy of the source. -/
def follow_path (st : FS) (path : List Int) : Int × Int × List Int :=
  match path with
  | [] => (-1, -1, [])
  | c :: rest =>
    if c ≠ 47 then (-1, -1, [])
    else
      match fpLoop st (-1) 0 [] (splitSlash (rest.take 255) []) with
      | none => (-1, -1, [])
      | some (parent, child, name) =>
        if child < -1 then (-1, -1, [])
        else if parent = -1 ∧ child = 0 then (0, 0, name)
        else (parent, child, name)

/-- File_Open (LibFS.c lines 1058-1101): claim a descriptor with
new_file_fd first (E_TOO_MANY_OPEN_FILES when the table is full, before
the path is even looked at), then resolve the path, check the inode is a
file, and initialize the slot with the inode, its size and cursor 0. -/
def File_Open (st : FS) (path : List Int) : Int × FS :=
  let fd := new_file_fd st
  if fd < 0 then (-1, { st with osErrno := E_TOO_MANY_OPEN_FILES })
  else
    let r := follow_path st path
    let child_inode := r.2.1
    if 0 ≤ child_inode then
      let child := st.inodes child_inode
      if child.type ≠ 0 then (-1, { st with osErrno := E_GENERAL })
      else
        (fd,
         { st with open_files := fun j => if j = fd then { inode := child_inode, size := child.size, pos := 0 } else st.open_files j })
    else (-1, { st with osErrno := E_NO_SUCH_FILE })

/-- Dir_Size (LibFS.c lines 1510-1562): resolve, reject files, and return
`child->size * sizeof(dirent_t)` - the entry count scaled by the 20 byte
record size, not the bare entry count. -/
def Dir_Size (st : FS) (path : List Int) : Int × FS :=
  let r := follow_path st path
  let child_inode := r.2.1
  if 0 ≤ child_inode then
    let child := st.inodes child_inode
    if child.type = 0 then (-1, { st with osErrno := E_GENERAL })
    else (child.size * DIRENT_SIZE, st)
  else (-1, { st with osErrno := E_GENERAL })

/-- Inner dirent loop of Dir_Read (LibFS.c lines 1638-1646): for j from 0
while j < DIRENTS_PER_SECTOR and counter < size, copy entry j of the data
sector to `buffer + j*sizeof(dirent_t)` - the within-sector index j, not
the running counter, addresses the caller's buffer. -/
def drInner (db : Buf) (dirsize : Int) : Nat → Int → Int → Buf → Int × Buf
  | 0, _, counter, out => (counter, out)
  | fuel + 1, j, counter, out =>
    if j < DIRENTS_PER_SECTOR ∧ counter < dirsize then
      drInner db dirsize fuel (j + 1) (counter + 1)
        (memcpy out (DIRENT_SIZE * j) db (DIRENT_SIZE * j) DIRENT_SIZE)
    else (counter, out)

/-- Outer sector loop of Dir_Read (LibFS.c lines 1622-1652): for each of
the MAX_SECTORS_PER_FILE data slots, read the sector, run the inner copy
loop, and return the directory size once the counter reaches it.  Falling
out of the loop reaches the final `return -1` of the function. -/
def drOuter (st : FS) (child : Inode) : Nat → Int → Int → Buf → Option Int × Buf
  | 0, _, _, out => (none, out)
  | fuel + 1, i, counter, out =>
    let p := drInner (st.disk (child.data i)) child.size 25 0 counter out
    if p.1 = child.size then (some child.size, p.2)
    else drOuter st child fuel (i + 1) p.1 p.2

/-- Dir_Read (LibFS.c lines 1572-1662): resolve the path, reject a caller
buffer smaller than Dir_Size(path) bytes, then copy the live entries into
the caller buffer sector by sector.  Returns (return value, state, caller
buffer). -/
def Dir_Read (st : FS) (path : List Int) (buffer : Buf) (size : Int) : Int × FS × Buf :=
  let r := follow_path st path
  let child_inode := r.2.1
  if 0 ≤ child_inode then
    let ds := Dir_Size st path
    if size < ds.1 then (-1, { ds.2 with osErrno := E_BUFFER_TOO_SMALL }, buffer)
    else
      let child := ds.2.inodes child_inode
      match drOuter ds.2 child 30 0 0 buffer with
      | (some ret, out) => (ret, ds.2, out)
      | (none, out) => (-1, ds.2, out)
  else (-1, { st with osErrno := E_GENERAL }, buffer)

/-- Data sector reclaim loop of remove_inode (LibFS.c lines 659-673): for
a regular file, clear the sector-bitmap bit of every positive data sector
index. -/
def reclaimLoop (disk : Int → Buf) (child : Inode) : Nat → Int → Int → Buf
  | 0, _ => disk
  | fuel + 1, i =>
    let disk2 := if child.data i > 0 then
        (bitmap_reset disk SECTOR_BITMAP_START_SECTOR SECTOR_BITMAP_SECTORS (child.data i)).2
      else disk
    reclaimLoop disk2 child fuel (i + 1)

/-- Entry scan of the swap step of remove_inode (LibFS.c lines 749-778):
the first entry of a dirent sector whose inode equals child_inode. -/
def riSwapInner (buf : Buf) (child_inode : Int) : Nat → Int → Option Int
  | 0, _ => none
  | fuel + 1, e =>
    if (direntAt buf e).ino = child_inode then some e
    else riSwapInner buf child_inode fuel (e + 1)

/-- Group scan of the swap step of remove_inode (LibFS.c lines 740-779):
scan every group sector for the entry holding child_inode; on a hit,
overwrite that entry with the last entry record and write the sector back
(the source then zeroes the last entry only inside last_dirent_buffer,
which is never written to disk, and leaves the loop). -/
def riSwapOuter (disk : Int → Buf) (parent : Inode) (child_inode : Int) (ld : DirentRec) :
    Nat → Int → Int → Buf
  | 0, _ => disk
  | fuel + 1, g =>
    let buf := disk (parent.data g)
    match riSwapInner buf child_inode 25 0 with
    | some e => updSector disk (parent.data g) (direntSet buf e ld)
    | none => riSwapOuter disk parent child_inode ld fuel (g + 1)

/-- remove_inode (LibFS.c lines 630-790): returns (code, state) with code
0 on success, -1 general error, -2 directory not empty (also returned for
a non-directory parent), -3 wrong type.  For a file the data sectors are
reclaimed; the child inode is zeroed and its inode-bitmap bit cleared;
for a parent with more than one entry the entry holding child_inode is
overwritten with the last entry (the zeroing of the vacated last slot
happens only in the local last_dirent_buffer, which is never written
back, so it does not reach the disk); finally the parent size is
decremented and the parent inode persisted.  When the parent size is a
multiple of DIRENTS_PER_SECTOR the source reads the last entry at byte
offset -1*sizeof(dirent_t) of an unrelated buffer (undefined behaviour in
C); the model reads the total byte functions there instead. -/
def remove_inode (st : FS) (type parent_inode child_inode : Int) : Int × FS :=
  let child := st.inodes child_inode
  if child.type ≠ type then (-3, st)
  else if child.type = 1 ∧ child.size > 0 then (-2, st)
  else
    let disk1 := if child.type = 0 then reclaimLoop st.disk child 30 0 else st.disk
    let st1 : FS := { st with disk := disk1, inodes := fun j => if j = child_inode then zeroInode else st.inodes j }
    let disk2 := (bitmap_reset st1.disk INODE_BITMAP_START_SECTOR INODE_BITMAP_SECTORS child_inode).2
    let st2 : FS := { st1 with disk := disk2 }
    let parent := st2.inodes parent_inode
    if parent.type ≠ 1 then (-2, st2)
    else
      let st3 : FS :=
        if parent.size > 1 then
          let last_group := parent.size.tdiv DIRENTS_PER_SECTOR
          let last_buf := st2.disk (parent.data last_group)
          let loff := parent.size - last_group * DIRENTS_PER_SECTOR - 1
          let last_dirent := direntAt last_buf loff
          { st2 with disk := riSwapOuter st2.disk parent child_inode last_dirent 30 0 }
        else st2
      (0, { st3 with inodes := fun j => if j = parent_inode then { parent with size := parent.size - 1 } else st3.inodes j })

/-- The loop state carried by a File_Read loop result (the fields of the
source that survive an early error return, in particular the cursor). -/
def rlState : ReadLoopRes → ReadLoopSt
  | .ok r => r
  | .err _ r => r

/-- The loop state carried by a File_Write loop result. -/
def wlState : WriteLoopRes → WriteLoopSt
  | .ok r => r
  | .err _ r => r

/-- An all-zero byte buffer. -/
def bufZero : Buf := fun _ => 0

/-- An all-zero disk image. -/
def diskZero : Int → Buf := fun _ => bufZero

/-- A free open-file slot (inode 0). -/
def freeSlot : OpenFile := { inode := 0, size := 0, pos := 0 }

/-- A root directory inode with n entries whose first two dirent group
sectors are 255 and 256. -/
def rootDir (n : Int) : Inode :=
  { size := n, type := 1, data := fun i => if i = 0 then 255 else if i = 1 then 256 else 0 }

/-- A regular-file inode of the given size with first data sector 300. -/
def fileAt300 (n : Int) : Inode :=
  { size := n, type := 0, data := fun i => if i = 0 then 300 else if i = 1 then 301 else 0 }

/-- Concrete state for C1: a freshly opened one byte file whose content
byte (at data sector 300) is 65, opened at slot 0 with cursor 0. -/
def stC1 : FS :=
  { disk := fun s => if s = 300 then (fun k => if k = 0 then 65 else 0) else bufZero
    inodes := fun j => if j = 1 then fileAt300 1 else if j = 0 then rootDir 0 else zeroInode
    open_files := fun i => if i = 0 then { inode := 1, size := 1, pos := 0 } else freeSlot
    osErrno := 0 }

/-- Concrete state for C2: slot 0 open on inode 2 with size 5, cursor 3. -/
def stSeek : FS :=
  { disk := diskZero
    inodes := fun j => if j = 2 then fileAt300 5 else if j = 0 then rootDir 0 else zeroInode
    open_files := fun i => if i = 0 then { inode := 2, size := 5, pos := 3 } else freeSlot
    osErrno := 0 }

/-- Concrete state for C3: slot 0 open on inode 1, a file of the maximum
size 15360 bytes, with the cursor rewound to 0. -/
def stMaxFile : FS :=
  { disk := diskZero
    inodes := fun j => if j = 1 then fileAt300 15360 else if j = 0 then rootDir 0 else zeroInode
    open_files := fun i => if i = 0 then { inode := 1, size := 15360, pos := 0 } else freeSlot
    osErrno := 0 }

/-- Concrete state for the C4 counterexample: slot 0 open on inode 1, a
file of 513 bytes, cursor 0. -/
def stRead513 : FS :=
  { disk := diskZero
    inodes := fun j => if j = 1 then fileAt300 513 else if j = 0 then rootDir 0 else zeroInode
    open_files := fun i => if i = 0 then { inode := 1, size := 513, pos := 0 } else freeSlot
    osErrno := 0 }

/-- Concrete state for C5: a freshly booted open-file table, every slot
free (inode 0); inode 0 is the root directory. -/
def stFreshTable : FS :=
  { disk := diskZero
    inodes := fun j => if j = 0 then rootDir 0 else zeroInode
    open_files := fun _ => freeSlot
    osErrno := 0 }

/-- A dirent sector holding the single entry (name "a", inode 1). -/
def sectorOneEntry : Buf := fun k => if k = 0 then 97 else if k = 16 then 1 else 0

/-- Concrete state for C6 and the C8 witness: the root directory holds
exactly one live entry, ("a", inode 1), in its first group sector 255. -/
def stOneEntry : FS :=
  { disk := fun s => if s = 255 then sectorOneEntry else bufZero
    inodes := fun j => if j = 1 then fileAt300 0 else if j = 0 then rootDir 1 else zeroInode
    open_files := fun _ => freeSlot
    osErrno := 0 }

/-- A dirent sector holding 25 entries: entry j has first name byte 97
("a") and inode number j+1. -/
def sector25 : Buf :=
  fun k => if 0 ≤ k ∧ k < 500 then
      (if k.tmod 20 = 0 then 97 else if k.tmod 20 = 16 then k.tdiv 20 + 1 else 0)
    else 0

/-- A dirent sector whose first entry is (name "z", inode 26). -/
def sectorZ : Buf := fun k => if k = 0 then 122 else if k = 16 then 26 else 0

/-- Concrete state for the C8 counterexample: the root directory holds 26
live entries, 25 in group sector 255 and 1 in group sector 256. -/
def st26 : FS :=
  { disk := fun s => if s = 255 then sector25 else if s = 256 then sectorZ else bufZero
    inodes := fun j => if j = 0 then rootDir 26 else zeroInode
    open_files := fun _ => freeSlot
    osErrno := 0 }

/-- A dirent sector holding ("a", inode 1) then ("b", inode 2). -/
def sectorAB : Buf :=
  fun k => if k = 0 then 97 else if k = 16 then 1 else if k = 20 then 98 else if k = 36 then 2 else 0

/-- Concrete state for C7: the root directory holds the two entries
("a", inode 1) and ("b", inode 2); inodes 1 and 2 are empty files. -/
def stAB : FS :=
  { disk := fun s => if s = 255 then sectorAB else bufZero
    inodes := fun j => if j = 0 then rootDir 2 else if j = 1 then { size := 0, type := 0, data := fun _ => 0 } else if j = 2 then { size := 0, type := 0, data := fun _ => 0 } else zeroInode
    open_files := fun _ => freeSlot
    osErrno := 0 }

/-- The dirent record ("b", inode 2) with a NUL padded name field. -/
def direntB : DirentRec :=
  { fname := [98, 0, 0, 0, 0, 0, 0, 0, 0, 0, 0, 0, 0, 0, 0, 0], ino := 2 }

/-- The all-zero dirent record. -/
def direntZero : DirentRec :=
  { fname := [0, 0, 0, 0, 0, 0, 0, 0, 0, 0, 0, 0, 0, 0, 0, 0], ino := 0 }

/-- Concrete state for C9: every slot of the open-file table in use. -/
def stTableFull : FS :=
  { disk := diskZero
    inodes := fun j => if j = 0 then rootDir 0 else zeroInode
    open_files := fun _ => { inode := 1, size := 0, pos := 0 }
    osErrno := 0 }

/-- Concrete state for the C10 witness: slot 0 open on inode 1, an empty
file whose first data sector 300 is already allocated. -/
def stEmptyFile : FS :=
  { disk := diskZero
    inodes := fun j => if j = 1 then fileAt300 0 else if j = 0 then rootDir 0 else zeroInode
    open_files := fun i => if i = 0 then { inode := 1, size := 0, pos := 0 } else freeSlot
    osErrno := 0 }

/-! Helper lemmas. -/

theorem tdiv512_le29 (a : Int) (h : a ≤ 15359) : a.tdiv 512 ≤ 29 := by
  cases a with
  | ofNat m =>
    show Int.ofNat (m / 512) ≤ 29
    simp only [Int.ofNat_eq_coe] at *
    omega
  | negSucc m =>
    show -(Int.ofNat ((m + 1) / 512)) ≤ 29
    simp only [Int.ofNat_eq_coe]
    omega

theorem tdiv512_le30 (a : Int) (h : a ≤ 15360) : a.tdiv 512 ≤ 30 := by
  cases a with
  | ofNat m =>
    show Int.ofNat (m / 512) ≤ 30
    simp only [Int.ofNat_eq_coe] at *
    omega
  | negSucc m =>
    show -(Int.ofNat ((m + 1) / 512)) ≤ 30
    simp only [Int.ofNat_eq_coe]
    omega

theorem tdiv512_nonneg (a : Int) (h : 0 ≤ a) : 0 ≤ a.tdiv 512 := by
  cases a with
  | ofNat m =>
    show 0 ≤ Int.ofNat (m / 512)
    simp only [Int.ofNat_eq_coe]
    omega
  | negSucc m => simp at h

theorem tmod512_bounds (a : Int) (h : 0 ≤ a) : 0 ≤ a.tmod 512 ∧ a.tmod 512 < 512 := by
  cases a with
  | ofNat m =>
    show 0 ≤ Int.ofNat (m % 512) ∧ Int.ofNat (m % 512) < 512
    simp only [Int.ofNat_eq_coe]
    omega
  | negSucc m => simp at h

theorem SECTOR_SIZE_val : SECTOR_SIZE = 512 := rfl

theorem MAX_SECTORS_val : MAX_SECTORS_PER_FILE = 30 := rfl

theorem MAX_FILE_SIZE_val : MAX_FILE_SIZE = 15360 := by decide

theorem DIRENT_SIZE_val : DIRENT_SIZE = 20 := by decide

theorem DIRENTS_PER_SECTOR_val : DIRENTS_PER_SECTOR = 25 := by decide

theorem isOpenScan_one (st : FS) (ino : Int) :
    ∀ (fuel : Nat) (i : Int), (∃ k : Int, i ≤ k ∧ k < i + fuel ∧ (st.open_files k).inode = ino) →
    isOpenScan st ino fuel i = 1 := by
  intro fuel
  induction fuel with
  | zero =>
    intro i h
    obtain ⟨k, h1, h2, _⟩ := h
    simp only [Nat.cast_zero, add_zero] at h2
    omega
  | succ n ih =>
    intro i h
    obtain ⟨k, h1, h2, h3⟩ := h
    unfold isOpenScan
    by_cases hi : (st.open_files i).inode = ino
    · simp [hi]
    · have hki : k ≠ i := fun he => hi (he ▸ h3)
      simp only [hi, if_false]
      exact ih (i + 1) ⟨k, by omega, by push_cast at h2 ⊢; omega, h3⟩

theorem is_file_open_slot (st : FS) (fd : Int) (h0 : 0 ≤ fd) (h1 : fd < 256) :
    is_file_open st (st.open_files fd).inode = 1 :=
  isOpenScan_one st (st.open_files fd).inode 256 0 ⟨fd, h0, by push_cast; omega, rfl⟩

theorem nffScan_neg (st : FS) :
    ∀ (fuel : Nat) (i : Int), (∀ k : Int, i ≤ k → k < i + fuel → (st.open_files k).inode > 0) →
    nffScan st fuel i = -1 := by
  intro fuel
  induction fuel with
  | zero => intro i _; rfl
  | succ n ih =>
    intro i h
    unfold nffScan
    have hi : (st.open_files i).inode > 0 := h i le_rfl (by push_cast; omega)
    simp only [show ¬((st.open_files i).inode ≤ 0) by omega, if_false]
    exact ih (i + 1) fun k hk1 hk2 => h k (by omega) (by push_cast at hk2 ⊢; omega)

theorem readStep_pos (st : FS) (child : Inode) (si i : Int) (r : ReadLoopSt) :
    (readStep st child si i r).pos = r.pos + r.sector_bytes := rfl

theorem readStep_btr (st : FS) (child : Inode) (si i : Int) (r : ReadLoopSt) :
    (readStep st child si i r).bytes_to_read = r.bytes_to_read - r.sector_bytes := rfl

theorem readStep_sb (st : FS) (child : Inode) (si i : Int) (r : ReadLoopSt) :
    (readStep st child si i r).sector_bytes =
      if r.bytes_to_read - r.sector_bytes < SECTOR_SIZE then r.bytes_to_read - r.sector_bytes
      else SECTOR_SIZE := rfl

theorem fileReadLoop_pos_bounds (st : FS) (child : Inode) (si : Int) :
    ∀ (fuel : Nat) (i : Int) (r : ReadLoopSt),
    0 ≤ r.sector_bytes → r.sector_bytes ≤ r.bytes_to_read →
    r.pos ≤ (rlState (fileReadLoop st child si fuel i r)).pos ∧
    (rlState (fileReadLoop st child si fuel i r)).pos ≤ r.pos + r.bytes_to_read := by
  intro fuel
  induction fuel with
  | zero =>
    intro i r h1 h2
    simp only [fileReadLoop, rlState]
    omega
  | succ n ih =>
    intro i r h1 h2
    simp only [fileReadLoop]
    by_cases hi : i > MAX_SECTORS_PER_FILE
    · simp only [hi, if_true, rlState]
      omega
    · simp only [hi, if_false]
      have hs1 : 0 ≤ (readStep st child si i r).sector_bytes := by
        rw [readStep_sb]
        simp only [SECTOR_SIZE_val]
        split <;> omega
      have hs2 : (readStep st child si i r).sector_bytes ≤ (readStep st child si i r).bytes_to_read := by
        rw [readStep_sb, readStep_btr]
        simp only [SECTOR_SIZE_val]
        split <;> omega
      have h3 := ih (i + 1) (readStep st child si i r) hs1 hs2
      rw [readStep_pos, readStep_btr] at h3
      omega

theorem fileWriteLoop_err_nospace (si : Int) :
    ∀ (fuel : Nat) (i : Int) (r : WriteLoopSt) (e : Int) (r2 : WriteLoopSt),
    i + (fuel : Int) ≤ 31 → fileWriteLoop si fuel i r = .err e r2 → e = E_NO_SPACE := by
  intro fuel
  induction fuel with
  | zero =>
    intro i r e r2 _ h
    exact absurd h (by simp [fileWriteLoop])
  | succ n ih =>
    intro i r e r2 hb h
    simp only [fileWriteLoop] at h
    have h30 : ¬ i > MAX_SECTORS_PER_FILE := by
      simp only [MAX_SECTORS_val]
      push_cast at hb
      omega
    rw [if_neg h30] at h
    by_cases ha : (writeAlloc i r).2
    · rw [if_pos ha] at h
      injection h with h1 _
      exact h1.symm
    · rw [if_neg ha] at h
      exact ih (i + 1) (writeStep si i (writeAlloc i r).1) e r2 (by push_cast at hb ⊢; omega) h

theorem File_Write_ret_cases (st : FS) (fd : Int) (buffer : Buf) (size : Int) :
    (File_Write st fd buffer size).1 = -1 ∨ (File_Write st fd buffer size).1 = size := by
  rcases hr : File_Write st fd buffer size with ⟨ret, st2⟩
  simp only [File_Write] at hr
  split at hr
  · left; exact (Prod.mk.injEq .. |>.mp hr).1.symm
  · split at hr
    · left; exact (Prod.mk.injEq .. |>.mp hr).1.symm
    · split at hr
      · left; exact (Prod.mk.injEq .. |>.mp hr).1.symm
      · split at hr
        · left; exact (Prod.mk.injEq .. |>.mp hr).1.symm
        · right; exact (Prod.mk.injEq .. |>.mp hr).1.symm

/-- C9: File_Open claims a descriptor slot before resolving the path:
whenever every open-file-table slot is in use, File_Open fails with the
too-many-open-files error for every path argument - including paths that
do not exist - rather than with the not-found error. -/
theorem c9_open_table_full (st : FS) (path : List Int)
    (h : ∀ k : Int, 0 ≤ k → k < 256 → (st.open_files k).inode > 0) :
    File_Open st path = (-1, { st with osErrno := E_TOO_MANY_OPEN_FILES }) := by
  have hnf : new_file_fd st = -1 :=
    nffScan_neg st 256 0 (fun k h1 h2 => h k h1 (by push_cast at h2; omega))
  simp only [File_Open, hnf]
  norm_num

/-- C9 witness: a concrete full table; every slot holds inode 1, and opening
any path (here the existing path consisting of a slash and the letter a)
reports too-many-open-files. -/
theorem c9_witness :
    (∀ k : Int, 0 ≤ k → k < 256 → (stTableFull.open_files k).inode > 0) ∧
    File_Open stTableFull [47, 97] = (-1, { stTableFull with osErrno := E_TOO_MANY_OPEN_FILES }) :=
  ⟨fun k _ _ => show (0:Int) < 1 by decide,
   c9_open_table_full stTableFull [47, 97] (fun k _ _ => show (0:Int) < 1 by decide)⟩

/-- C10: whenever File_Write returns without error (its error return is -1),
its return value is exactly the requested size argument, whatever the
per-sector copy loop transferred. -/
theorem c10_write_returns_requested_size (st : FS) (fd : Int) (buffer : Buf) (size : Int)
    (h : (File_Write st fd buffer size).1 ≠ -1) :
    (File_Write st fd buffer size).1 = size :=
  (File_Write_ret_cases st fd buffer size).resolve_left h

/-- C10 witness: writing one byte to a fresh empty file at slot 0 succeeds
and returns 1. -/
theorem c10_witness :
    (File_Write stEmptyFile 0 bufZero 1).1 ≠ -1 ∧ (File_Write stEmptyFile 0 bufZero 1).1 = 1 :=
  ⟨by decide, c10_write_returns_requested_size stEmptyFile 0 bufZero 1 (by decide)⟩

/-- C3 (amended): with fd an open slot on a regular file, cursor p and
cached size s well formed (0 ≤ p ≤ s) and request n ≥ 0, File_Write is
rejected with the file-too-big error exactly when s + n exceeds
MAX_FILE_SIZE - the source guard compares the cached file size, not the
cursor position - and a call rejected for this reason leaves the inode
table and the open-file table (hence the recorded size) unchanged. -/
theorem c3_write_file_too_big_iff_size_based (st : FS) (fd size : Int) (buffer : Buf)
    (hfd : 0 ≤ fd) (hfd2 : fd < 256)
    (hino : (st.open_files fd).inode > 0)
    (htype : (st.inodes (st.open_files fd).inode).type = 0)
    (hpos : 0 ≤ (st.open_files fd).pos)
    (hps : (st.open_files fd).pos ≤ (st.open_files fd).size)
    (hn : 0 ≤ size) :
    (((File_Write st fd buffer size).1 = -1 ∧
        (File_Write st fd buffer size).2.osErrno = E_FILE_TOO_BIG)
      ↔ (st.open_files fd).size + size > MAX_FILE_SIZE)
    ∧ ((st.open_files fd).size + size > MAX_FILE_SIZE →
        (File_Write st fd buffer size).2.inodes = st.inodes ∧
        (File_Write st fd buffer size).2.open_files = st.open_files) := by
  have hopen := is_file_open_slot st fd hfd hfd2
  rcases hr : File_Write st fd buffer size with ⟨ret, st2⟩
  simp only [File_Write, SECTOR_SIZE_val, MAX_FILE_SIZE_val, MAX_SECTORS_val] at hr
  rw [if_neg (by simp [hopen])] at hr
  rw [show MAX_FILE_SIZE = 15360 from MAX_FILE_SIZE_val]
  by_cases hbig : (st.open_files fd).size + size > 15360
  · rw [if_pos hbig] at hr
    obtain ⟨h1, h2⟩ := Prod.mk.injEq .. |>.mp hr
    subst h1
    subst h2
    exact ⟨⟨fun _ => hbig, fun _ => ⟨rfl, rfl⟩⟩, fun _ => ⟨rfl, rfl⟩⟩
  · rw [if_neg hbig] at hr
    rw [if_neg (by simp [htype])] at hr
    have hsi := tmod512_bounds (st.open_files fd).pos hpos
    have hofs0 : 0 ≤ (st.open_files fd).pos.tdiv 512 := tdiv512_nonneg _ hpos
    have hofs30 : (st.open_files fd).pos.tdiv 512 ≤ 30 := tdiv512_le30 _ (by omega)
    have hstw : (size - (512 - (st.open_files fd).pos.tmod 512)).tdiv 512 ≤ 29 :=
      tdiv512_le29 _ (by omega)
    split at hr
    · rename_i e r heq
      have he : e = E_NO_SPACE :=
        fileWriteLoop_err_nospace _ _ _ _ e r (by omega) heq
      obtain ⟨h1, h2⟩ := Prod.mk.injEq .. |>.mp hr
      subst h1
      subst h2
      refine ⟨⟨fun hx => ?_, fun hx => absurd hx hbig⟩, fun hx => absurd hx hbig⟩
      have hfe : e = E_FILE_TOO_BIG := hx.2
      rw [he] at hfe
      exact absurd hfe (by decide)
    · rename_i r heq
      obtain ⟨h1, h2⟩ := Prod.mk.injEq .. |>.mp hr
      subst h1
      subst h2
      refine ⟨⟨fun hx => ?_, fun hx => absurd hx hbig⟩, fun hx => absurd hx hbig⟩
      have hse : size = -1 := hx.1
      omega

/-- C3 counterexample (refuting the claim as stated): a file of the maximum
size 15360 bytes whose cursor has been rewound to position 0.  Writing a
single byte satisfies p + n = 1 ≤ MAX_FILE_SIZE, so the claim as stated
says the call is not rejected for the file-too-big reason, yet the code
rejects it with E_FILE_TOO_BIG because it tests the recorded size instead
of the cursor. -/
theorem c3_counterexample :
    (stMaxFile.open_files 0).pos + 1 ≤ MAX_FILE_SIZE ∧
    (File_Write stMaxFile 0 bufZero 1).1 = -1 ∧
    (File_Write stMaxFile 0 bufZero 1).2.osErrno = E_FILE_TOO_BIG := by
  refine ⟨by decide, by decide, by decide⟩

/-- C3 witness: the amended theorem applied at the same concrete state;
the rejected call leaves the inode and open-file tables unchanged. -/
theorem c3_witness :
    ((0:Int) ≤ 0 ∧ (0:Int) < 256 ∧ (stMaxFile.open_files 0).inode > 0 ∧
     (stMaxFile.inodes (stMaxFile.open_files 0).inode).type = 0 ∧
     0 ≤ (stMaxFile.open_files 0).pos ∧
     (stMaxFile.open_files 0).pos ≤ (stMaxFile.open_files 0).size ∧ (0:Int) ≤ 1) ∧
    ((((File_Write stMaxFile 0 bufZero 1).1 = -1 ∧
        (File_Write stMaxFile 0 bufZero 1).2.osErrno = E_FILE_TOO_BIG)
      ↔ (stMaxFile.open_files 0).size + 1 > MAX_FILE_SIZE)
     ∧ ((stMaxFile.open_files 0).size + 1 > MAX_FILE_SIZE →
        (File_Write stMaxFile 0 bufZero 1).2.inodes = stMaxFile.inodes ∧
        (File_Write stMaxFile 0 bufZero 1).2.open_files = stMaxFile.open_files)) :=
  ⟨by decide,
   c3_write_file_too_big_iff_size_based stMaxFile 0 1 bufZero (by decide) (by decide)
     (by decide) (by decide) (by decide) (by decide) (by decide)⟩

theorem setPos_self (st : FS) (fd p : Int) :
    ((setPos st fd p).open_files fd).pos = p := by
  simp [setPos]

/-- C4 (amended): for an open descriptor on a regular file with cursor p
and cached size s, 0 ≤ p ≤ s, and a request n ≥ 0: at p = s the call
returns 0 with the state and caller buffer untouched; whenever the call
returns without error the return value is exactly min n (s - p); and the
cursor never moves backwards, never moves past s, and advances by at most
min n (s - p).  (The original claim's "advances the cursor by exactly that
amount" is refuted by c4_counterexample: the loop iteration count drops
the cursor short of the returned count.) -/
theorem c4_read_return_and_cursor_bounds (st : FS) (fd : Int) (buffer : Buf) (size : Int)
    (hfd : 0 ≤ fd) (hfd2 : fd < 256)
    (hino : (st.open_files fd).inode > 0)
    (htype : (st.inodes (st.open_files fd).inode).type = 0)
    (hpos : 0 ≤ (st.open_files fd).pos)
    (hps : (st.open_files fd).pos ≤ (st.open_files fd).size)
    (hn : 0 ≤ size) :
    ((st.open_files fd).pos = (st.open_files fd).size →
      File_Read st fd buffer size = (0, st, buffer))
    ∧ ((File_Read st fd buffer size).1 ≠ -1 →
        (File_Read st fd buffer size).1 =
          min size ((st.open_files fd).size - (st.open_files fd).pos))
    ∧ (st.open_files fd).pos ≤ ((File_Read st fd buffer size).2.1.open_files fd).pos
    ∧ ((File_Read st fd buffer size).2.1.open_files fd).pos ≤ (st.open_files fd).size
    ∧ ((File_Read st fd buffer size).2.1.open_files fd).pos - (st.open_files fd).pos
        ≤ min size ((st.open_files fd).size - (st.open_files fd).pos) := by
  have hopen := is_file_open_slot st fd hfd hfd2
  by_cases heof : (st.open_files fd).size ≤ (st.open_files fd).pos
  · have hres : File_Read st fd buffer size = (0, st, buffer) := by
      simp only [File_Read, SECTOR_SIZE_val, MAX_SECTORS_val]
      rw [if_neg (by simp [hopen]), if_neg (by simp [htype]), if_pos heof]
    rw [hres]
    refine ⟨fun _ => rfl, fun _ => ?_, le_refl _, hps, ?_⟩
    · show (0:Int) = min size ((st.open_files fd).size - (st.open_files fd).pos)
      omega
    · show (st.open_files fd).pos - (st.open_files fd).pos ≤
        min size ((st.open_files fd).size - (st.open_files fd).pos)
      omega
  · rcases hr : File_Read st fd buffer size with ⟨ret, st2, buf2⟩
    simp only [File_Read, SECTOR_SIZE_val, MAX_SECTORS_val] at hr
    rw [if_neg (by simp [hopen]), if_neg (by simp [htype]), if_neg heof] at hr
    set p := (st.open_files fd).pos with hp
    set s := (st.open_files fd).size with hs
    set child := st.inodes (st.open_files fd).inode with hchild
    set eor := if p + size > s then s else p + size with heor
    set btr := eor - p with hbtr
    set si := Int.tmod p 512 with hsi2
    set sb0 := if btr < 512 then btr else 512 - si with hsb0
    set str := Int.tdiv (eor - (512 - si)) 512 with hstr
    set ofs := Int.tdiv p 512 with hofs
    have hsib : 0 ≤ si ∧ si < 512 := by rw [hsi2]; exact tmod512_bounds p hpos
    have hkey : 0 ≤ btr ∧ btr = min size (s - p) := by
      by_cases hcl : p + size > s
      · rw [if_pos hcl] at heor; omega
      · rw [if_neg hcl] at heor; omega
    have hinv1 : (0:Int) ≤ sb0 := by
      rw [hsb0]; split <;> omega
    have hinv2 : sb0 ≤ btr := by
      rw [hsb0]; split <;> omega
    split at hr
    · rename_i r heq
      have hb := fileReadLoop_pos_bounds st child si ((str + 1).toNat) ofs
        { pos := p, buffer_index := 0, bytes_to_read := btr, sector_bytes := sb0,
          scratch := fun _ => 0 } hinv1 hinv2
      rw [heq] at hb
      simp only [rlState] at hb
      have hb1 : p ≤ r.pos := hb.1
      have hb2 : r.pos ≤ p + btr := hb.2
      obtain ⟨h1, h23⟩ := Prod.mk.injEq .. |>.mp hr
      obtain ⟨h2, h3⟩ := Prod.mk.injEq .. |>.mp h23
      subst h1
      subst h2
      subst h3
      refine ⟨fun hpe => absurd hpe (by omega), fun _ => hkey.2, ?_, ?_, ?_⟩
      · show p ≤ ((setPos st fd r.pos).open_files fd).pos
        rw [setPos_self]
        exact hb1
      · show ((setPos st fd r.pos).open_files fd).pos ≤ s
        rw [setPos_self]
        omega
      · show ((setPos st fd r.pos).open_files fd).pos - p ≤ min size (s - p)
        rw [setPos_self]
        omega
    · rename_i e r heq
      have hb := fileReadLoop_pos_bounds st child si ((str + 1).toNat) ofs
        { pos := p, buffer_index := 0, bytes_to_read := btr, sector_bytes := sb0,
          scratch := fun _ => 0 } hinv1 hinv2
      rw [heq] at hb
      simp only [rlState] at hb
      have hb1 : p ≤ r.pos := hb.1
      have hb2 : r.pos ≤ p + btr := hb.2
      obtain ⟨h1, h23⟩ := Prod.mk.injEq .. |>.mp hr
      obtain ⟨h2, h3⟩ := Prod.mk.injEq .. |>.mp h23
      subst h1
      subst h2
      subst h3
      refine ⟨fun hpe => absurd hpe (by omega), fun hne => absurd rfl hne, ?_, ?_, ?_⟩
      · show p ≤ ((setPos st fd r.pos).open_files fd).pos
        rw [setPos_self]
        exact hb1
      · show ((setPos st fd r.pos).open_files fd).pos ≤ s
        rw [setPos_self]
        omega
      · show ((setPos st fd r.pos).open_files fd).pos - p ≤ min size (s - p)
        rw [setPos_self]
        omega

/-- C4 counterexample (refuting the claim as stated): reading 513 bytes
from a 513 byte file at cursor 0 returns 513 = min(513, 513 - 0), but the
cursor advances only to 512: the loop runs sectors_to_read + 1 =
(513-512)/512 + 1 = 1 iteration and transfers 512 bytes, so the cursor
does not advance by the returned amount. -/
theorem c4_counterexample :
    (File_Read stRead513 0 bufZero 513).1 = 513 ∧
    ((File_Read stRead513 0 bufZero 513).2.1.open_files 0).pos = 512 ∧
    (512 : Int) ≠ 0 + 513 := by
  exact ⟨by decide, by decide, by decide⟩

/-- C4 witness: the amended theorem applied to a one byte file read in
full at slot 0 of stC1. -/
theorem c4_witness :
    ((0:Int) ≤ 0 ∧ (0:Int) < 256 ∧ (stC1.open_files 0).inode > 0 ∧
     (stC1.inodes (stC1.open_files 0).inode).type = 0 ∧
     0 ≤ (stC1.open_files 0).pos ∧ (stC1.open_files 0).pos ≤ (stC1.open_files 0).size ∧
     (0:Int) ≤ 1) ∧
    (((stC1.open_files 0).pos = (stC1.open_files 0).size →
        File_Read stC1 0 bufZero 1 = (0, stC1, bufZero))
     ∧ ((File_Read stC1 0 bufZero 1).1 ≠ -1 →
         (File_Read stC1 0 bufZero 1).1 =
           min 1 ((stC1.open_files 0).size - (stC1.open_files 0).pos))
     ∧ (stC1.open_files 0).pos ≤ ((File_Read stC1 0 bufZero 1).2.1.open_files 0).pos
     ∧ ((File_Read stC1 0 bufZero 1).2.1.open_files 0).pos ≤ (stC1.open_files 0).size
     ∧ ((File_Read stC1 0 bufZero 1).2.1.open_files 0).pos - (stC1.open_files 0).pos
         ≤ min 1 ((stC1.open_files 0).size - (stC1.open_files 0).pos)) :=
  ⟨by decide,
   c4_read_return_and_cursor_bounds stC1 0 bufZero 1 (by decide) (by decide) (by decide)
     (by decide) (by decide) (by decide) (by decide)⟩

/-- C1 (the write/read round trip fails): stC1 is the state of a freshly
formatted volume after a one byte file whose content byte is 65 has been
created, written and reopened (slot 0, cursor 0, size 1; the byte lives in
data sector 300).  Reading 1 byte back returns 1, but the reader's buffer
(initialized to zero) still holds 0, not the 65 that was written: the copy
loop of File_Read moves bytes only inside its local scratch sector, since
the caller's buffer parameter is shadowed by the local declaration, so the
bytes "read back" are never the bytes written. -/
theorem c1_read_does_not_touch_caller_buffer :
    stC1.disk 300 0 = 65 ∧
    (File_Read stC1 0 bufZero 1).1 = 1 ∧
    (File_Read stC1 0 bufZero 1).2.2 0 = 0 ∧
    (0 : Int) ≠ 65 := by
  exact ⟨by decide, by decide, by decide, by decide⟩

/-- C2 (negative seek positions are accepted): on an open descriptor with
size 5 and cursor 3, File_Seek(fd, -4) does not fail: the source tests
`open_files[fd].size < 0` where it should test `offset < 0`, so the call
sets the cursor to -4, returns -4 and leaves osErrno untouched (0, not
E_SEEK_OUT_OF_BOUNDS), where the claim requires the out-of-range error. -/
theorem c2_seek_accepts_negative_offset :
    (File_Seek stSeek 0 (-4)).1 = -4 ∧
    ((File_Seek stSeek 0 (-4)).2.open_files 0).pos = -4 ∧
    (File_Seek stSeek 0 (-4)).2.osErrno = 0 ∧
    (0 : Int) ≠ E_SEEK_OUT_OF_BOUNDS ∧
    (File_Seek stSeek 0 5).1 = 5 ∧
    (File_Seek stSeek 0 6).1 = -1 ∧
    (File_Seek stSeek 0 6).2.osErrno = E_SEEK_OUT_OF_BOUNDS := by
  exact ⟨by decide, by decide, by decide, by decide, by decide, by decide, by decide⟩

/-- C5 (a free descriptor is not reported as bad): in a freshly booted
state every open-file slot is free (inode 0), so for fd 0 the check
`is_file_open(open_files[fd].inode)` evaluates is_file_open(0), which
finds the free slots themselves and reports the descriptor as open; both
File_Read and File_Write then proceed to inode 0 (the root directory) and
fail with E_GENERAL from the type check, not with the bad-descriptor
error the claim requires. -/
theorem c5_read_write_free_fd_general_error :
    (stFreshTable.open_files 0).inode = 0 ∧
    (File_Read stFreshTable 0 bufZero 1).1 = -1 ∧
    (File_Read stFreshTable 0 bufZero 1).2.1.osErrno = E_GENERAL ∧
    (File_Write stFreshTable 0 bufZero 1).1 = -1 ∧
    (File_Write stFreshTable 0 bufZero 1).2.osErrno = E_GENERAL ∧
    E_GENERAL ≠ E_BAD_FD := by
  exact ⟨by decide, by decide, by decide, by decide, by decide, by decide⟩

/-- C7 (the vacated last slot is not zeroed on disk): in stAB the root
directory holds ("a", inode 1) then ("b", inode 2).  remove_inode(file,
root, 1) succeeds, decrements the size to 1 and overwrites slot 0 with the
last entry ("b", 2) - but the old last slot (slot 1) still holds the stale
("b", 2) record on disk, because the memset that zeroes it is applied to
the local last_dirent_buffer, which is never written back. -/
theorem c7_stale_last_dirent_slot :
    (remove_inode stAB 0 0 1).1 = 0 ∧
    ((remove_inode stAB 0 0 1).2.inodes 0).size = 1 ∧
    direntAt ((remove_inode stAB 0 0 1).2.disk 255) 0 = direntB ∧
    direntAt ((remove_inode stAB 0 0 1).2.disk 255) 1 = direntB ∧
    direntB ≠ direntZero := by
  exact ⟨by decide, by decide, by decide, by decide, by decide⟩

theorem Dir_Size_eq (st : FS) (path : List Int) (p c : Int) (nm : List Int)
    (h : follow_path st path = (p, c, nm)) (hc : 0 ≤ c) (ht : (st.inodes c).type = 1) :
    Dir_Size st path = ((st.inodes c).size * DIRENT_SIZE, st) := by
  simp only [Dir_Size, h]
  rw [if_pos hc, if_neg (by simp [ht])]

/-- C6 (amended): for every state and path that resolves to an existing
directory inode, Dir_Size returns the number of live directory entries
(the directory inode's size field) multiplied by sizeof(dirent_t) = 20
bytes, not the bare entry count, and leaves the state untouched. -/
theorem c6_dir_size_scaled (st : FS) (path : List Int) (p c : Int) (nm : List Int)
    (h : follow_path st path = (p, c, nm)) (hc : 0 ≤ c) (ht : (st.inodes c).type = 1) :
    Dir_Size st path = ((st.inodes c).size * DIRENT_SIZE, st) :=
  Dir_Size_eq st path p c nm h hc ht

/-- C6 counterexample (refuting the claim as stated): in stOneEntry the
root directory holds exactly one live entry, ("a", inode 1), yet
Dir_Size("/") returns 20, not the entry count 1. -/
theorem c6_counterexample :
    (stOneEntry.inodes 0).size = 1 ∧
    direntAt (stOneEntry.disk 255) 0 = { fname := [97, 0, 0, 0, 0, 0, 0, 0, 0, 0, 0, 0, 0, 0, 0, 0], ino := 1 } ∧
    (Dir_Size stOneEntry [47]).1 = 20 ∧
    (20 : Int) ≠ 1 := by
  exact ⟨by decide, by decide, by decide, by decide⟩

/-- C6 witness: the amended theorem applied to the one-entry root
directory and the path consisting of a single slash. -/
theorem c6_witness :
    (follow_path stOneEntry [47] = (0, 0, []) ∧ (0:Int) ≤ 0 ∧ (stOneEntry.inodes 0).type = 1) ∧
    Dir_Size stOneEntry [47] = ((stOneEntry.inodes 0).size * DIRENT_SIZE, stOneEntry) :=
  ⟨⟨by decide, by decide, by decide⟩,
   c6_dir_size_scaled stOneEntry [47] 0 0 [] (by decide) (by decide) (by decide)⟩

theorem memcpy_window (out db : Buf) (o L k : Int) :
    memcpy out o db o L k = if o ≤ k ∧ k < o + L then db k else out k := by
  simp only [memcpy]
  split
  · congr 1
    omega
  · rfl

theorem bytesAt_congr (f g : Buf) :
    ∀ (count : Nat) (off : Int), (∀ k : Int, off ≤ k → k < off + count → f k = g k) →
    bytesAt f off count = bytesAt g off count := by
  intro count
  induction count with
  | zero => intro off _; rfl
  | succ m ih =>
    intro off h
    simp only [bytesAt]
    rw [h off le_rfl (by push_cast; omega)]
    rw [ih (off + 1) (fun k hk1 hk2 => h k (by omega) (by push_cast at hk2 ⊢; omega))]

theorem direntAt_congr (f g : Buf) (j : Int)
    (h : ∀ k : Int, DIRENT_SIZE * j ≤ k → k < DIRENT_SIZE * j + 20 → f k = g k) :
    direntAt f j = direntAt g j := by
  have h1 : bytesAt f (DIRENT_SIZE * j) 16 = bytesAt g (DIRENT_SIZE * j) 16 :=
    bytesAt_congr f g 16 (DIRENT_SIZE * j) (fun k hk1 hk2 => h k hk1 (by push_cast at hk2; omega))
  have h2 : readInt32 f (DIRENT_SIZE * j + 16) = readInt32 g (DIRENT_SIZE * j + 16) := by
    simp only [readInt32]
    rw [h _ (by omega) (by omega), h _ (by omega) (by omega),
        h _ (by omega) (by omega), h _ (by omega) (by omega)]
  simp only [direntAt]
  rw [h1, h2]

theorem drInner_run (db : Buf) (n : Int) (hn : 0 ≤ n) (h25 : n ≤ 25) :
    ∀ (fuel : Nat) (j : Int) (out : Buf), 0 ≤ j → j ≤ n → 25 ≤ (fuel : Int) + j →
    (drInner db n fuel j j out).1 = n ∧
    (∀ k : Int, 20 * j ≤ k → k < 20 * n → (drInner db n fuel j j out).2 k = db k) ∧
    (∀ k : Int, k < 20 * j ∨ 20 * n ≤ k → (drInner db n fuel j j out).2 k = out k) := by
  intro fuel
  induction fuel with
  | zero =>
    intro j out h0 h1 h2
    push_cast at h2
    have hj : j = n := by omega
    simp only [drInner]
    exact ⟨hj, fun k hk1 hk2 => absurd hk2 (by omega), by simp⟩
  | succ m ih =>
    intro j out h0 h1 h2
    by_cases hj : j < n
    · simp only [drInner, DIRENTS_PER_SECTOR_val, DIRENT_SIZE_val]
      rw [if_pos ⟨by omega, hj⟩]
      have hrec := ih (j + 1) (memcpy out (20 * j) db (20 * j) 20) (by omega) (by omega)
        (by push_cast at h2 ⊢; omega)
      obtain ⟨ha, hb, hc⟩ := hrec
      refine ⟨ha, ?_, ?_⟩
      · intro k hk1 hk2
        by_cases hkr : 20 * (j + 1) ≤ k
        · exact hb k hkr hk2
        · rw [hc k (Or.inl (by omega)), memcpy_window, if_pos (by omega)]
      · intro k hk
        rw [hc k (Or.elim hk (fun h => Or.inl (by omega)) Or.inr), memcpy_window,
            if_neg (by omega)]
    · have hjn : j = n := by omega
      simp only [drInner, DIRENTS_PER_SECTOR_val, DIRENT_SIZE_val]
      rw [if_neg (by omega)]
      exact ⟨hjn, fun k hk1 hk2 => absurd hk2 (by omega), by simp⟩

theorem drOuter_step (st : FS) (child : Inode) (fuel : Nat) (i counter : Int) (out : Buf)
    (h : (drInner (st.disk (child.data i)) child.size 25 0 counter out).1 = child.size) :
    drOuter st child (fuel + 1) i counter out =
      (some child.size, (drInner (st.disk (child.data i)) child.size 25 0 counter out).2) := by
  simp only [drOuter]
  rw [if_pos h]

/-- C8 (amended): for every state and path resolving to an existing
directory whose n live entries fit inside one dirent sector
(n ≤ DIRENTS_PER_SECTOR = 25) and a caller buffer of at least
n * sizeof(dirent_t) bytes, Dir_Read returns n and fills the first n
dirent slots of the buffer with exactly the n (name, inode) records of the
directory's first group sector.  (Beyond one sector the claim fails:
the copy loop indexes the caller buffer with the within-sector index j,
see c8_counterexample.) -/
theorem c8_dir_read_single_sector (st : FS) (path : List Int) (buffer : Buf) (size : Int)
    (p c : Int) (nm : List Int)
    (hres : follow_path st path = (p, c, nm)) (hc : 0 ≤ c)
    (ht : (st.inodes c).type = 1)
    (hn0 : 0 ≤ (st.inodes c).size) (hn25 : (st.inodes c).size ≤ 25)
    (hcap : 20 * (st.inodes c).size ≤ size) :
    (Dir_Read st path buffer size).1 = (st.inodes c).size
    ∧ (∀ j : Int, 0 ≤ j → j < (st.inodes c).size →
        direntAt (Dir_Read st path buffer size).2.2 j =
          direntAt (st.disk ((st.inodes c).data 0)) j) := by
  have hds := Dir_Size_eq st path p c nm hres hc ht
  have hrun := drInner_run (st.disk ((st.inodes c).data 0)) (st.inodes c).size hn0 hn25
    25 0 buffer le_rfl hn0 (by norm_num)
  obtain ⟨ha, hb, _⟩ := hrun
  simp only [Dir_Read, hres, hds]
  rw [if_pos hc, if_neg (by rw [DIRENT_SIZE_val]; omega)]
  rw [show (30 : Nat) = 29 + 1 from rfl, drOuter_step st (st.inodes c) 29 0 0 buffer ha]
  refine ⟨rfl, fun j hj0 hjn => ?_⟩
  exact direntAt_congr _ _ j
    (fun k hk1 hk2 => hb k (by rw [DIRENT_SIZE_val] at hk1; omega)
      (by rw [DIRENT_SIZE_val] at hk1 hk2; omega))

/-- C8 counterexample (refuting the claim as stated): the root directory
of st26 holds 26 live entries, entry 0 being ("a", inode 1) in sector 255
and entry 25 being ("z", inode 26) in sector 256.  With a large enough
buffer, Dir_Read returns 26, but the buffer does not contain entry 0 at
any of the 26 slots: the second sector's entry was copied to buffer
offset j*20 with the within-sector index j = 0, overwriting entry 0. -/
theorem c8_counterexample :
    (Dir_Read st26 [47] bufZero 520).1 = 26 ∧
    direntAt (st26.disk 255) 0 = { fname := [97, 0, 0, 0, 0, 0, 0, 0, 0, 0, 0, 0, 0, 0, 0, 0], ino := 1 } ∧
    direntAt (Dir_Read st26 [47] bufZero 520).2.2 0 = direntAt (st26.disk 256) 0 ∧
    ((List.range 26).all fun j =>
      direntAt (Dir_Read st26 [47] bufZero 520).2.2 (j : Int) ≠ direntAt (st26.disk 255) 0) = true := by
  exact ⟨by decide, by decide, by decide, by decide⟩

/-- C8 witness: the amended theorem applied to the one-entry root
directory of stOneEntry with a 20 byte buffer. -/
theorem c8_witness :
    (follow_path stOneEntry [47] = (0, 0, []) ∧ (0:Int) ≤ 0 ∧
     (stOneEntry.inodes 0).type = 1 ∧ 0 ≤ (stOneEntry.inodes 0).size ∧
     (stOneEntry.inodes 0).size ≤ 25 ∧ 20 * (stOneEntry.inodes 0).size ≤ 20) ∧
    ((Dir_Read stOneEntry [47] bufZero 20).1 = (stOneEntry.inodes 0).size
     ∧ (∀ j : Int, 0 ≤ j → j < (stOneEntry.inodes 0).size →
         direntAt (Dir_Read stOneEntry [47] bufZero 20).2.2 j =
           direntAt (stOneEntry.disk ((stOneEntry.inodes 0).data 0)) j)) :=
  ⟨⟨by decide, by decide, by decide, by decide, by decide, by decide⟩,
   c8_dir_read_single_sector stOneEntry [47] bufZero 20 0 0 [] (by decide) (by decide)
     (by decide) (by decide) (by decide) (by decide)⟩
